import Mathlib

/-!
Shallow embedding of the rap-freestyle word-contributor application
(`app.py`): a Streamlit front end over a MongoDB store with two
collections, `rap_words` (collection of word documents) and
`generation_rounds` (collection of round documents).

Modelling decisions, all taken from the source:
* MongoDB documents become Lean structures.  String-valued opaque
  identifiers (ObjectId-derived user ids, document ids) are modelled as
  `Nat`: the code only ever compares them for equality, except in the
  MongoDB `votes` array sort where BSON compares them by a total order,
  and `Nat` is order-isomorphic to any such family of distinct keys.
* `datetime.now(UTC)` timestamps are modelled as a `Nat` parameter
  passed to each operation.
* A field that may be absent from a document (`votes` and
  `generated_songs` on a round) is an `Option`; `round.get('votes', [])`
  becomes `Option.getD`.
* The store is a `DB` structure holding the two collections as lists in
  insertion order (MongoDB natural order).  `find_one({'_id': i})` is
  `List.find?` on the id, `insert_one` appends, and `update_one`
  modifies the first matching document (`updateFirst`).
* `words_collection.find(...).sort([('votes', -1)])` sorts by the raw
  `votes` array descending.  Per MongoDB's documented comparison rules,
  a descending sort on an array field uses the array's maximal element
  as the sort key (an empty array ranks below every non-empty one), and
  the vote documents `{user_id, timestamp}` compare field by field in
  insertion order: `user_id` first, then `timestamp`.  That comparison
  is `voteLe`; the sort key of an array is `voteMax`.  MongoDB fixes no
  order between documents with equal sort keys, so we model the sort as
  a deterministic stable comparison sort (`List.insertionSort`), which
  agrees with every comparison sort whenever the keys are distinct.
* Python's `list.sort` with a key function (in `get_previous_rounds`)
  is a stable sort; a stable sort by a total preorder has a unique
  result, so `List.insertionSort` (which is stable) models it exactly.
-/

namespace RapApp

/-- Vote entry `{user_id, timestamp}` appended to a word's or a round's
vote list (`app.py` lines 69-72 and 84-87). -/
structure VoteEntry where
  user_id : Nat
  timestamp : Nat
deriving DecidableEq

/-- Generated song entry `{lyric, audio_url}`; attached to completed
rounds by an external process, only its presence is inspected here. -/
structure Song where
  lyric : Option String
  audio_url : Option String
deriving DecidableEq

/-- Word document of the `rap_words` collection (`app.py` lines 38-44). -/
structure WordDoc where
  id : Nat
  word : String
  votes : List VoteEntry
  created_at : Nat
  created_by : Nat
  round_id : Nat
deriving DecidableEq

/-- Round document of the `generation_rounds` collection
(`app.py` lines 114-119); `votes` and `generated_songs` may be absent. -/
structure RoundDoc where
  id : Nat
  round_number : Nat
  status : String
  created_at : Nat
  total_chars : Nat
  votes : Option (List VoteEntry)
  generated_songs : Option (List Song)
deriving DecidableEq

/-- The MongoDB store: the two collections, in natural (insertion) order. -/
structure DB where
  words : List WordDoc
  rounds : List RoundDoc
deriving DecidableEq

/-- Constant `BASE_PROMPT` (`app.py` line 13).  Note that the literal
ends with a trailing space. -/
def BASE_PROMPT : String :=
  "Create a cool rap song with the following words that must be in it: "

/-- Constant `CHAR_LIMIT` (`app.py` line 14). -/
def CHAR_LIMIT : Nat := 200

/-- MongoDB `update_one`: applies `f` to the first element matching `p`,
leaving the rest unchanged. -/
def updateFirst {α : Type} (p : α → Bool) (f : α → α) : List α → List α
  | [] => []
  | x :: xs => if p x then f x :: xs else x :: updateFirst p f xs

/-- `find_one({'_id': wid})` on the words collection. -/
def findWord (db : DB) (wid : Nat) : Option WordDoc :=
  db.words.find? (fun w => w.id == wid)

/-- `find_one({'_id': rid})` on the rounds collection. -/
def findRound (db : DB) (rid : Nat) : Option RoundDoc :=
  db.rounds.find? (fun r => r.id == rid)

/-- `words_collection.find({'round_id': rid})` in natural order. -/
def roundWords (db : DB) (rid : Nat) : List WordDoc :=
  db.words.filter (fun w => w.round_id == rid)

/-- `calculate_prompt_length(words)` (`app.py` lines 93-100).  The Python
function receives dictionaries and reads their `word` fields; here it
receives the extracted word texts. -/
def calculate_prompt_length (words : List String) : Nat :=
  if words = [] then BASE_PROMPT.length
  else (BASE_PROMPT ++ String.intercalate " " words).length

/-- Result of `add_word`: the `(success, message)` pair together with
the store state after the call. -/
structure AddWordResult where
  success : Bool
  message : String
  db : DB
deriving DecidableEq

/-- `add_word(word, current_round)` (`app.py` lines 26-51).  `user_id` is
the session user, `now` the insertion timestamp, `new_id` the `_id`
MongoDB assigns to the inserted document. -/
def add_word (w : String) (current_round : RoundDoc) (user_id now new_id : Nat)
    (db : DB) : AddWordResult :=
  let current_words := roundWords db current_round.id
  let new_total_length :=
    calculate_prompt_length (current_words.map (fun x => x.word) ++ [w])
  if new_total_length > CHAR_LIMIT then
    ⟨false, "Adding this word would exceed the character limit", db⟩
  else
    let word_doc : WordDoc :=
      ⟨new_id, w, [], now, user_id, current_round.id⟩
    ⟨true, "Word added successfully",
      ⟨db.words ++ [word_doc],
       updateFirst (fun r => r.id == current_round.id)
         (fun r => { r with total_chars := new_total_length }) db.rounds⟩⟩

/-- `vote_for_song(round_id)` (`app.py` lines 53-78): returns the boolean
result and the store state after the call. -/
def vote_for_song (round_id user_id now : Nat) (db : DB) : Bool × DB :=
  match findRound db round_id with
  | none => (false, db)
  | some round =>
    match round.generated_songs with
    | none => (false, db)
    | some _ =>
      let dbInit : DB :=
        if round.votes.isNone then
          ⟨db.words,
           updateFirst (fun r => r.id == round_id)
             (fun r => { r with votes := some [] }) db.rounds⟩
        else db
      if ((round.votes.getD []).map (fun v => v.user_id)).contains user_id then
        (false, dbInit)
      else
        (true,
         ⟨dbInit.words,
          updateFirst (fun r => r.id == round_id)
            (fun r => { r with
              votes := some ((r.votes.getD []) ++ [⟨user_id, now⟩]) })
            dbInit.rounds⟩)

/-- `vote_for_word(word_id)` (`app.py` lines 80-91).  When no word with
that id exists, `find_one` returns `None` and line 83 dereferences it
(`word.get(...)`), raising `AttributeError`: that fault is `none`. -/
def vote_for_word (word_id user_id now : Nat) (db : DB) : Option DB :=
  match findWord db word_id with
  | none => none
  | some word =>
    if (word.votes.map (fun v => v.user_id)).contains user_id then
      some db
    else
      some ⟨updateFirst (fun x => x.id == word_id)
              (fun x => { x with votes := x.votes ++ [⟨user_id, now⟩] })
              db.words,
            db.rounds⟩

/-- BSON comparison of two vote documents: field by field in insertion
order, `user_id` first, then `timestamp`. -/
def voteLe (a b : VoteEntry) : Bool :=
  a.user_id < b.user_id || (a.user_id == b.user_id && a.timestamp ≤ b.timestamp)

/-- Sort key MongoDB uses for an array field under a descending sort:
the maximal element, `none` for an empty array. -/
def voteMax (vs : List VoteEntry) : Option VoteEntry :=
  vs.foldl
    (fun acc v =>
      match acc with
      | none => some v
      | some m => if voteLe m v then some v else some m)
    none

/-- Comparison underlying `.sort([('votes', -1)])`: `a` may precede `b`
when `a`'s array sort key is at least `b`'s (empty arrays rank lowest). -/
def wordDescOrder (a b : WordDoc) : Bool :=
  match voteMax a.votes, voteMax b.votes with
  | _, none => true
  | none, some _ => false
  | some x, some y => voteLe y x

/-- `get_current_round_words(current_round)` (`app.py` lines 102-106). -/
def get_current_round_words (current_round : RoundDoc) (db : DB) : List WordDoc :=
  List.insertionSort (fun a b => wordDescOrder a b = true)
    (roundWords db current_round.id)

/-- `get_current_round()` (`app.py` lines 108-122): returns the round
together with the store state after the call.  `new_id` is the `_id`
assigned on insertion, `now` the creation timestamp;
`count_documents({})` is the length of the rounds collection. -/
def get_current_round (now new_id : Nat) (db : DB) : RoundDoc × DB :=
  match db.rounds.find? (fun r => r.status == "active") with
  | some current_round => (current_round, db)
  | none =>
    let current_round : RoundDoc :=
      ⟨new_id, db.rounds.length + 1, "active", now, BASE_PROMPT.length,
       none, none⟩
    (current_round, ⟨db.words, db.rounds ++ [current_round]⟩)

/-- Round annotated with its `vote_count`, as produced by
`get_previous_rounds` (`app.py` lines 129-130). -/
structure AnnotatedRound where
  round : RoundDoc
  vote_count : Nat
deriving DecidableEq

/-- Field accessor shortcut used by the sort on annotated rounds. -/
def AnnotatedRound.round_number (a : AnnotatedRound) : Nat :=
  a.round.round_number

/-- Comparison realising the Python sort key
`lambda x: (-x['vote_count'], -x['round_number'])`: `a` may precede `b`
when `a`'s key pair is at least `b`'s lexicographically. -/
def roundOrder (a b : AnnotatedRound) : Bool :=
  b.vote_count < a.vote_count ||
    (b.vote_count == a.vote_count && b.round_number ≤ a.round_number)

instance : IsTotal AnnotatedRound (fun a b => roundOrder a b = true) :=
  ⟨by
    intro a b
    simp only [roundOrder, AnnotatedRound.round_number, Bool.or_eq_true,
      Bool.and_eq_true, beq_iff_eq, decide_eq_true_eq]
    omega⟩

instance : IsTrans AnnotatedRound (fun a b => roundOrder a b = true) :=
  ⟨by
    intro a b c hab hbc
    simp only [roundOrder, AnnotatedRound.round_number, Bool.or_eq_true,
      Bool.and_eq_true, beq_iff_eq, decide_eq_true_eq] at hab hbc ⊢
    omega⟩

/-- `get_previous_rounds()` (`app.py` lines 124-134). -/
def get_previous_rounds (db : DB) : List AnnotatedRound :=
  let previous_rounds := db.rounds.filter (fun r => r.status == "completed")
  let annotated :=
    previous_rounds.map (fun r => ⟨r, (r.votes.getD []).length⟩)
  List.insertionSort (fun a b => roundOrder a b = true) annotated

/-- `get_current_prompt(current_round)` (`app.py` lines 136-143). -/
def get_current_prompt (current_round : RoundDoc) (db : DB) : String :=
  let words := get_current_round_words current_round db
  if words = [] then BASE_PROMPT
  else BASE_PROMPT ++ String.intercalate " " (words.map (fun x => x.word))

/-- Number of rounds whose status is `active`. -/
def countActive (db : DB) : Nat :=
  db.rounds.countP (fun r => r.status == "active")

/-- Every round's cached `total_chars` is within the character ceiling. -/
def allWithinLimit (db : DB) : Bool :=
  db.rounds.all (fun r => r.total_chars ≤ CHAR_LIMIT)

/-- The total `add_word` recomputes before its ceiling check (`app.py`
lines 28-33): the length of the prompt over the round's current words
with the candidate appended. -/
def newTotal (db : DB) (rid : Nat) (w : String) : Nat :=
  calculate_prompt_length ((roundWords db rid).map (fun x => x.word) ++ [w])

/-! Helper lemmas about `updateFirst`, the model of MongoDB `update_one`. -/

theorem find?_updateFirst {α : Type} (p : α → Bool) (f : α → α)
    (hf : ∀ x, p x = true → p (f x) = true) (l : List α) :
    (updateFirst p f l).find? p = (l.find? p).map f := by
  induction l with
  | nil => rfl
  | cons x xs ih =>
    by_cases hx : p x = true
    · rw [updateFirst, if_pos hx, List.find?_cons_of_pos _ (hf x hx),
        List.find?_cons_of_pos _ hx]
      rfl
    · rw [updateFirst, if_neg hx,
        List.find?_cons_of_neg _ (by simpa using hx),
        List.find?_cons_of_neg _ (by simpa using hx), ih]

theorem updateFirst_updateFirst {α : Type} (p : α → Bool) (f g : α → α)
    (hf : ∀ x, p x = true → p (f x) = true) (l : List α) :
    updateFirst p g (updateFirst p f l) = updateFirst p (fun x => g (f x)) l := by
  induction l with
  | nil => rfl
  | cons x xs ih =>
    by_cases hx : p x = true
    · rw [updateFirst, if_pos hx, updateFirst, if_pos (hf x hx), updateFirst, if_pos hx]
    · rw [updateFirst, if_neg hx, updateFirst, if_neg hx, updateFirst, if_neg hx, ih]

theorem countP_updateFirst {α : Type} (p : α → Bool) (f : α → α) (q : α → Bool)
    (hq : ∀ x, q (f x) = q x) (l : List α) :
    (updateFirst p f l).countP q = l.countP q := by
  induction l with
  | nil => rfl
  | cons x xs ih =>
    by_cases hx : p x = true
    · rw [updateFirst, if_pos hx, List.countP_cons, List.countP_cons, hq]
    · rw [updateFirst, if_neg hx, List.countP_cons, List.countP_cons, ih]

theorem mem_updateFirst {α : Type} {p : α → Bool} {f : α → α} {l : List α} {x : α}
    (hx : x ∈ updateFirst p f l) : x ∈ l ∨ ∃ y, y ∈ l ∧ x = f y := by
  induction l with
  | nil => simp [updateFirst] at hx
  | cons a as ih =>
    by_cases ha : p a = true
    · rw [updateFirst, if_pos ha] at hx
      rcases List.mem_cons.mp hx with h | h
      · exact Or.inr ⟨a, List.mem_cons_self a as, h⟩
      · exact Or.inl (List.mem_cons_of_mem a h)
    · rw [updateFirst, if_neg ha] at hx
      rcases List.mem_cons.mp hx with h | h
      · exact Or.inl (h ▸ List.mem_cons_self a as)
      · rcases ih h with h' | ⟨y, hy, hxy⟩
        · exact Or.inl (List.mem_cons_of_mem a h')
        · exact Or.inr ⟨y, List.mem_cons_of_mem a hy, hxy⟩

/-! Claim theorems. -/

/-- C2, counterexample to the claim as stated: the claimed formula
`length(base_prompt + " " + word_1 + ... + word_n)` counts one space too
many, because `BASE_PROMPT` itself already ends with a space.  At the
one-word list `["a"]` the code computes 69 while the claimed formula
gives 70. -/
theorem C2_counterexample :
    calculate_prompt_length ["a"] ≠ (BASE_PROMPT ++ " " ++ "a").length := by
  decide

/-- C2, amended: `calculate_prompt_length` of the empty list is the
length of `BASE_PROMPT`, and for non-empty `ws` it is the length of
`BASE_PROMPT` directly concatenated with the words joined by single
spaces; since `BASE_PROMPT` ends with exactly one space, this is the
prompt text followed by one space and then the words separated by
single spaces. -/
theorem C2_calculate_prompt_length_spec (ws : List String) :
    calculate_prompt_length [] = BASE_PROMPT.length
    ∧ (ws ≠ [] →
        calculate_prompt_length ws =
          (BASE_PROMPT ++ String.intercalate " " ws).length) := by
  refine ⟨rfl, fun h => ?_⟩
  rw [calculate_prompt_length, if_neg h]

/-- Witness for C2's amended theorem at the one-word list `["a"]`. -/
theorem C2_witness :
    calculate_prompt_length ["a"] =
      (BASE_PROMPT ++ String.intercalate " " ["a"]).length :=
  (C2_calculate_prompt_length_spec ["a"]).2 (by decide)

/-- C6: `get_current_round` returns the active round unchanged when one
exists, and otherwise creates and returns a round numbered one past the
current total round count, with status `active` and `total_chars` equal
to the base-prompt length. -/
theorem C6_get_current_round_spec (db : DB) (now nid : Nat) :
    (∀ r, db.rounds.find? (fun x => x.status == "active") = some r →
        get_current_round now nid db = (r, db))
    ∧ (db.rounds.find? (fun x => x.status == "active") = none →
        get_current_round now nid db =
          (⟨nid, db.rounds.length + 1, "active", now, BASE_PROMPT.length,
             none, none⟩,
           ⟨db.words,
            db.rounds ++
              [⟨nid, db.rounds.length + 1, "active", now, BASE_PROMPT.length,
                none, none⟩]⟩)) := by
  constructor
  · intro r hr
    rw [get_current_round, hr]
  · intro hnone
    rw [get_current_round, hnone]

/-- Witness for C6: on the empty store a round numbered 1 is created
(with `total_chars = 68`, the base-prompt length), and on a store that
already has an active round that round is returned with no change. -/
theorem C6_witness :
    get_current_round 5 1 ⟨[], []⟩ =
      (⟨1, 1, "active", 5, 68, none, none⟩,
       ⟨[], [⟨1, 1, "active", 5, 68, none, none⟩]⟩)
    ∧ get_current_round 5 9 ⟨[], [⟨1, 1, "active", 5, 68, none, none⟩]⟩ =
      (⟨1, 1, "active", 5, 68, none, none⟩,
       ⟨[], [⟨1, 1, "active", 5, 68, none, none⟩]⟩) :=
  ⟨(C6_get_current_round_spec ⟨[], []⟩ 5 1).2 rfl,
   (C6_get_current_round_spec ⟨[], [⟨1, 1, "active", 5, 68, none, none⟩]⟩ 5 9).1
     ⟨1, 1, "active", 5, 68, none, none⟩ rfl⟩

/-- C8: the code does NOT sort the round's words by vote count.  With
the claim's own scenario — `fire` with 2 votes and `gold` with 5 — the
MongoDB descending sort on the raw `votes` array compares maximal vote
entries (here fire's voter 9 beats gold's voter 7), so the code returns
`["fire", "gold"]` where the claim (and the function's docstring,
"sorted by vote count") require `["gold", "fire"]`; the rendered prompt
is likewise `BASE_PROMPT ++ "fire gold"`. -/
theorem C8_votecount_sort_bug :
    ((get_current_round_words ⟨1, 1, "active", 0, 68, none, none⟩
        ⟨[⟨2, "gold", [⟨3, 0⟩, ⟨4, 0⟩, ⟨5, 0⟩, ⟨6, 0⟩, ⟨7, 0⟩], 0, 1, 1⟩,
          ⟨1, "fire", [⟨8, 0⟩, ⟨9, 0⟩], 0, 1, 1⟩],
         [⟨1, 1, "active", 0, 68, none, none⟩]⟩).map
        (fun x => (x.word, x.votes.length)) = [("fire", 2), ("gold", 5)])
    ∧ get_current_prompt ⟨1, 1, "active", 0, 68, none, none⟩
        ⟨[⟨2, "gold", [⟨3, 0⟩, ⟨4, 0⟩, ⟨5, 0⟩, ⟨6, 0⟩, ⟨7, 0⟩], 0, 1, 1⟩,
          ⟨1, "fire", [⟨8, 0⟩, ⟨9, 0⟩], 0, 1, 1⟩],
         [⟨1, 1, "active", 0, 68, none, none⟩]⟩ =
        BASE_PROMPT ++ "fire gold" := by
  decide

/-- C10: `vote_for_word` faults exactly on missing words.  In the total
embedding the fault (`None.get` on the result of `find_one`, an
`AttributeError` in Python) is the `none` result, and it occurs exactly
when no word in the store carries the requested id; `vote_for_song`'s
not-found guard has no counterpart here. -/
theorem C10_vote_for_word_missing_faults (db : DB) (wid u t : Nat) :
    vote_for_word wid u t db = none ↔ ∀ x ∈ db.words, x.id ≠ wid := by
  cases hfw : findWord db wid with
  | none =>
    have hall := List.find?_eq_none.mp hfw
    constructor
    · intro _ x hx
      simpa using hall x hx
    · intro _
      rw [vote_for_word, hfw]
  | some w =>
    have hfw' : db.words.find? (fun x => x.id == wid) = some w := hfw
    have hmem : w ∈ db.words := List.mem_of_find?_eq_some hfw'
    have hid := List.find?_some hfw'
    constructor
    · intro h
      rw [vote_for_word, hfw] at h
      split at h
      next heq => exact Option.noConfusion heq
      next w' heq => split at h <;> exact Option.noConfusion h
    · intro hall
      exact absurd (by simpa using hid) (hall w hmem)

/-- C5: `get_previous_rounds` returns exactly the completed rounds, each
annotated with `vote_count` equal to the length of its vote list (zero
when the field is absent), ordered by vote count descending with ties
broken by round number descending; on the scenario rounds
{#1: 3 votes, #2: 1 vote, #3: 3 votes} the order is [#3, #1, #2]. -/
theorem C5_get_previous_rounds_spec (db : DB) :
    List.Perm (get_previous_rounds db)
        ((db.rounds.filter (fun r => r.status == "completed")).map
          (fun r => ⟨r, (r.votes.getD []).length⟩))
    ∧ List.Pairwise
        (fun a b : AnnotatedRound =>
          b.vote_count < a.vote_count ∨
            (b.vote_count = a.vote_count ∧
              b.round.round_number ≤ a.round.round_number))
        (get_previous_rounds db)
    ∧ (∀ a ∈ get_previous_rounds db,
        a.vote_count = (a.round.votes.getD []).length)
    ∧ (get_previous_rounds
          ⟨[], [⟨1, 1, "completed", 0, 68, some [⟨1, 0⟩, ⟨2, 0⟩, ⟨3, 0⟩], none⟩,
                ⟨2, 2, "completed", 0, 68, some [⟨1, 0⟩], none⟩,
                ⟨3, 3, "completed", 0, 68,
                  some [⟨4, 0⟩, ⟨5, 0⟩, ⟨6, 0⟩], none⟩]⟩).map
        (fun a => (a.round.round_number, a.vote_count)) =
      [(3, 3), (1, 3), (2, 1)] := by
  refine ⟨List.perm_insertionSort _ _, ?_, ?_, by decide⟩
  · have hs := List.sorted_insertionSort (fun a b => roundOrder a b = true)
      ((db.rounds.filter (fun r => r.status == "completed")).map
        (fun r => ⟨r, (r.votes.getD []).length⟩))
    refine List.Pairwise.imp ?_ hs
    intro a b h
    simpa only [roundOrder, AnnotatedRound.round_number, Bool.or_eq_true,
      Bool.and_eq_true, beq_iff_eq, decide_eq_true_eq] using h
  · intro a ha
    simp only [get_previous_rounds, List.mem_insertionSort] at ha
    obtain ⟨r, _, rfl⟩ := List.mem_map.mp ha
    rfl

/-- C1: when adding the word would push the recomputed prompt length
over the 200-character ceiling, `add_word` returns failure with the
exact message and leaves the whole store (word list and cached
`total_chars` included) unchanged; consequently a sequential run of
`add_word` keeps every round's stored `total_chars` within the
ceiling. -/
theorem C1_add_word_over_limit (db : DB) (round : RoundDoc) (w : String)
    (u t nid : Nat) :
    (calculate_prompt_length
        ((roundWords db round.id).map (fun x => x.word) ++ [w]) > CHAR_LIMIT →
      add_word w round u t nid db =
        ⟨false, "Adding this word would exceed the character limit", db⟩)
    ∧ (allWithinLimit db = true →
      allWithinLimit (add_word w round u t nid db).db = true) := by
  constructor
  · intro h
    simp only [add_word]
    rw [if_pos h]
  · intro hall
    by_cases hc : calculate_prompt_length
        ((roundWords db round.id).map (fun x => x.word) ++ [w]) > CHAR_LIMIT
    · simp only [add_word]
      rw [if_pos hc]
      exact hall
    · simp only [add_word]
      rw [if_neg hc]
      rw [allWithinLimit, List.all_eq_true]
      intro r hr
      rcases mem_updateFirst hr with h' | ⟨y, _, rfl⟩
      · exact (List.all_eq_true.mp hall) r h'
      · simpa using Nat.le_of_not_lt hc

set_option maxRecDepth 4000 in
/-- Witness for C1 at a concrete store: one active round at the
base-prompt length and a 140-character candidate word, whose addition
would make the prompt 208 characters long. -/
theorem C1_witness :
    add_word
        "aaaaaaaaaaaaaaaaaaaaaaaaaaaaaaaaaaaaaaaaaaaaaaaaaaaaaaaaaaaaaaaaaaaaaaaaaaaaaaaaaaaaaaaaaaaaaaaaaaaaaaaaaaaaaaaaaaaaaaaaaaaaaaaaaaaaaaaa"
        ⟨1, 1, "active", 0, 68, none, none⟩ 7 0 2
        ⟨[], [⟨1, 1, "active", 0, 68, none, none⟩]⟩ =
      ⟨false, "Adding this word would exceed the character limit",
        ⟨[], [⟨1, 1, "active", 0, 68, none, none⟩]⟩⟩
    ∧ allWithinLimit
        (add_word
          "aaaaaaaaaaaaaaaaaaaaaaaaaaaaaaaaaaaaaaaaaaaaaaaaaaaaaaaaaaaaaaaaaaaaaaaaaaaaaaaaaaaaaaaaaaaaaaaaaaaaaaaaaaaaaaaaaaaaaaaaaaaaaaaaaaaaaaaa"
          ⟨1, 1, "active", 0, 68, none, none⟩ 7 0 2
          ⟨[], [⟨1, 1, "active", 0, 68, none, none⟩]⟩).db = true :=
  ⟨(C1_add_word_over_limit ⟨[], [⟨1, 1, "active", 0, 68, none, none⟩]⟩
      ⟨1, 1, "active", 0, 68, none, none⟩ _ 7 0 2).1 (by decide),
   (C1_add_word_over_limit ⟨[], [⟨1, 1, "active", 0, 68, none, none⟩]⟩
      ⟨1, 1, "active", 0, 68, none, none⟩ _ 7 0 2).2 (by decide)⟩

/-- C9: when the recomputed total stays within the ceiling, `add_word`
appends exactly one new word document — empty vote list, the submitting
user as creator, the creation timestamp, the owning round id — updates
the round's cached `total_chars` to the new total (equal to
`calculate_prompt_length` of the round's resulting word list), and
returns success; no hypothesis restricts the word text, so a duplicate
of an existing word is inserted as a separate entry (the witness
exercises exactly that). -/
theorem C9_add_word_success (db : DB) (round : RoundDoc) (w : String)
    (u t nid : Nat)
    (h : newTotal db round.id w ≤ CHAR_LIMIT) :
    add_word w round u t nid db =
      ⟨true, "Word added successfully",
        ⟨db.words ++ [⟨nid, w, [], t, u, round.id⟩],
         updateFirst (fun r => r.id == round.id)
           (fun r => { r with total_chars := newTotal db round.id w })
           db.rounds⟩⟩
    ∧ roundWords (add_word w round u t nid db).db round.id =
        roundWords db round.id ++ [⟨nid, w, [], t, u, round.id⟩]
    ∧ (∀ r0, findRound db round.id = some r0 →
        findRound (add_word w round u t nid db).db round.id =
          some { r0 with total_chars := calculate_prompt_length ((roundWords (add_word w round u t nid db).db round.id).map (fun x => x.word)) }) := by
  have hnot : ¬ calculate_prompt_length
      ((roundWords db round.id).map (fun x => x.word) ++ [w]) > CHAR_LIMIT := by
    simp only [newTotal] at h
    exact not_lt.mpr h
  have E : add_word w round u t nid db =
      ⟨true, "Word added successfully",
        ⟨db.words ++ [⟨nid, w, [], t, u, round.id⟩],
         updateFirst (fun r => r.id == round.id)
           (fun r => { r with total_chars := newTotal db round.id w })
           db.rounds⟩⟩ := by
    simp only [add_word]
    rw [if_neg hnot]
    rfl
  have hW : roundWords (add_word w round u t nid db).db round.id =
      roundWords db round.id ++ [⟨nid, w, [], t, u, round.id⟩] := by
    rw [E]
    simp [roundWords, List.filter_append]
  refine ⟨E, hW, ?_⟩
  intro r0 hr0
  have hmap : (roundWords (add_word w round u t nid db).db round.id).map
      (fun x => x.word) =
      (roundWords db round.id).map (fun x => x.word) ++ [w] := by
    rw [hW]
    simp
  rw [hmap, E]
  have hr0' : db.rounds.find? (fun r => r.id == round.id) = some r0 := hr0
  rw [show (findRound
        ⟨db.words ++ [⟨nid, w, [], t, u, round.id⟩],
         updateFirst (fun r => r.id == round.id)
           (fun r => { r with total_chars := newTotal db round.id w })
           db.rounds⟩ round.id) =
      (updateFirst (fun r => r.id == round.id)
        (fun r => { r with total_chars := newTotal db round.id w })
        db.rounds).find? (fun r => r.id == round.id) from rfl]
  rw [find?_updateFirst (fun r => r.id == round.id)
    (fun r => { r with total_chars := newTotal db round.id w })
    (fun x hx => hx) db.rounds, hr0']
  rfl

/-- Witness for C9: adding the word `"yo"` to a round that already
contains a textually equal word `"yo"` succeeds and stores a second,
separate word document, with `total_chars` updated to 73. -/
theorem C9_witness :
    add_word "yo" ⟨1, 1, "active", 0, 70, none, none⟩ 7 3 2
        ⟨[⟨1, "yo", [], 0, 7, 1⟩], [⟨1, 1, "active", 0, 70, none, none⟩]⟩ =
      ⟨true, "Word added successfully",
        ⟨[⟨1, "yo", [], 0, 7, 1⟩, ⟨2, "yo", [], 3, 7, 1⟩],
         [⟨1, 1, "active", 0, 73, none, none⟩]⟩⟩
    ∧ findRound (add_word "yo" ⟨1, 1, "active", 0, 70, none, none⟩ 7 3 2
        ⟨[⟨1, "yo", [], 0, 7, 1⟩], [⟨1, 1, "active", 0, 70, none, none⟩]⟩).db 1 =
      some ⟨1, 1, "active", 0, 73, none, none⟩ := by
  have H := C9_add_word_success
    ⟨[⟨1, "yo", [], 0, 7, 1⟩], [⟨1, 1, "active", 0, 70, none, none⟩]⟩
    ⟨1, 1, "active", 0, 70, none, none⟩ "yo" 7 3 2 (by decide)
  exact ⟨H.1.trans (by decide),
    (H.2.2 ⟨1, 1, "active", 0, 70, none, none⟩ rfl).trans (by decide)⟩

/-- C3: `vote_for_word` is idempotent per user and word.  For an
existing word, a call by a user already among its voters changes
nothing; otherwise exactly one `{user_id, timestamp}` entry is appended
(leaving that user's entries at exactly one — in particular a fresh
word's vote list at length 1) and a repeat call by the same user is a
silent no-op. -/
theorem C3_vote_for_word_idempotent (db : DB) (wid u t t' : Nat) (w : WordDoc)
    (hw : findWord db wid = some w) :
    ((w.votes.map (fun v => v.user_id)).contains u = true →
        vote_for_word wid u t db = some db)
    ∧ ((w.votes.map (fun v => v.user_id)).contains u = false →
        vote_for_word wid u t db =
          some ⟨updateFirst (fun x => x.id == wid)
                  (fun x => { x with votes := x.votes ++ [⟨u, t⟩] }) db.words,
                db.rounds⟩
        ∧ findWord
            ⟨updateFirst (fun x => x.id == wid)
               (fun x => { x with votes := x.votes ++ [⟨u, t⟩] }) db.words,
             db.rounds⟩ wid = some { w with votes := w.votes ++ [⟨u, t⟩] }
        ∧ ((w.votes ++ [(⟨u, t⟩ : VoteEntry)]).filter (fun v => v.user_id == u)).length = 1
        ∧ vote_for_word wid u t'
            ⟨updateFirst (fun x => x.id == wid)
               (fun x => { x with votes := x.votes ++ [⟨u, t⟩] }) db.words,
             db.rounds⟩ =
          some ⟨updateFirst (fun x => x.id == wid)
                  (fun x => { x with votes := x.votes ++ [⟨u, t⟩] }) db.words,
                db.rounds⟩) := by
  have hw' : db.words.find? (fun x => x.id == wid) = some w := hw
  constructor
  · intro hc
    simp only [vote_for_word, hw]
    rw [if_pos hc]
  · intro hc
    have hnotmem : u ∉ w.votes.map (fun v => v.user_id) := by simpa using hc
    have hfind2 : findWord
        ⟨updateFirst (fun x => x.id == wid)
           (fun x => { x with votes := x.votes ++ [⟨u, t⟩] }) db.words,
         db.rounds⟩ wid = some { w with votes := w.votes ++ [⟨u, t⟩] } := by
      rw [show findWord
            ⟨updateFirst (fun x => x.id == wid)
               (fun x => { x with votes := x.votes ++ [⟨u, t⟩] }) db.words,
             db.rounds⟩ wid =
          (updateFirst (fun x => x.id == wid)
            (fun x => { x with votes := x.votes ++ [⟨u, t⟩] })
            db.words).find? (fun x => x.id == wid) from rfl]
      rw [find?_updateFirst (fun x => x.id == wid)
        (fun x => { x with votes := x.votes ++ [⟨u, t⟩] })
        (fun x hx => hx) db.words, hw']
      rfl
    refine ⟨?_, hfind2, ?_, ?_⟩
    · simp only [vote_for_word, hw]
      rw [if_neg (by rw [hc]; exact Bool.false_ne_true)]
    · rw [List.filter_append]
      rw [List.filter_eq_nil_iff.mpr
        (fun v hv => by
          simp only [beq_iff_eq]
          intro hequ
          exact hnotmem (List.mem_map.mpr ⟨v, hv, hequ⟩))]
      simp
    · simp only [vote_for_word, hfind2]
      rw [if_pos (by simp)]

/-- Witness for C3: user 5 votes for the fresh word `"yo"`; the vote
list becomes `[{5, 3}]` (length one) and a second vote by user 5
changes nothing. -/
theorem C3_witness :
    vote_for_word 1 5 3 ⟨[⟨1, "yo", [], 0, 7, 1⟩], []⟩ =
      some ⟨[⟨1, "yo", [⟨5, 3⟩], 0, 7, 1⟩], []⟩
    ∧ findWord ⟨[⟨1, "yo", [⟨5, 3⟩], 0, 7, 1⟩], []⟩ 1 =
      some ⟨1, "yo", [⟨5, 3⟩], 0, 7, 1⟩
    ∧ vote_for_word 1 5 4 ⟨[⟨1, "yo", [⟨5, 3⟩], 0, 7, 1⟩], []⟩ =
      some ⟨[⟨1, "yo", [⟨5, 3⟩], 0, 7, 1⟩], []⟩ := by
  have H := (C3_vote_for_word_idempotent ⟨[⟨1, "yo", [], 0, 7, 1⟩], []⟩
    1 5 3 4 ⟨1, "yo", [], 0, 7, 1⟩ rfl).2 (by decide)
  exact ⟨H.1.trans (by decide), (H.2.1).trans (by decide),
    (H.2.2.2).trans (by decide)⟩

/-- C4: `vote_for_song` returns false and changes nothing when the round
is missing or has no generated outputs, and otherwise returns true
exactly once per user and round: a first vote by a user appends
`{user_id, timestamp}` to the round's vote list (initialising it when
absent) and returns true, and every subsequent call by that user
returns false and changes nothing. -/
theorem C4_vote_for_song_spec (db : DB) (rid u t t' : Nat) :
    (findRound db rid = none → vote_for_song rid u t db = (false, db))
    ∧ (∀ r, findRound db rid = some r → r.generated_songs = none →
        vote_for_song rid u t db = (false, db))
    ∧ (∀ r, findRound db rid = some r → r.generated_songs ≠ none →
        (((r.votes.getD []).map (fun v => v.user_id)).contains u = true →
          vote_for_song rid u t db = (false, db))
        ∧ (((r.votes.getD []).map (fun v => v.user_id)).contains u = false →
          (vote_for_song rid u t db).1 = true
          ∧ findRound (vote_for_song rid u t db).2 rid =
              some { r with
                votes := some ((r.votes.getD []) ++ [(⟨u, t⟩ : VoteEntry)]) }
          ∧ vote_for_song rid u t' (vote_for_song rid u t db).2 =
              (false, (vote_for_song rid u t db).2))) := by
  refine ⟨?_, ?_, ?_⟩
  · intro h
    simp only [vote_for_song, h]
  · intro r hr hgs
    simp only [vote_for_song, hr, hgs]
  · intro r hr hgsne
    have hr' : db.rounds.find? (fun x => x.id == rid) = some r := hr
    obtain ⟨s, hgs⟩ := Option.ne_none_iff_exists'.mp hgsne
    constructor
    · intro hc
      have hvsome : r.votes.isNone = false := by
        cases hvv : r.votes with
        | none => rw [hvv] at hc; simp at hc
        | some l => rfl
      simp only [vote_for_song, hr, hgs, hvsome, Bool.false_eq_true,
        if_false, hc, if_true]
    · intro hc
      cases hvv : r.votes with
      | none =>
        have E : vote_for_song rid u t db =
            (true, ⟨db.words,
              updateFirst (fun x => x.id == rid)
                (fun x => { x with
                  votes := some ((x.votes.getD []) ++ [(⟨u, t⟩ : VoteEntry)]) })
                (updateFirst (fun x => x.id == rid)
                  (fun x => { x with votes := some [] }) db.rounds)⟩) := by
          simp only [vote_for_song, hr, hgs, hvv, Option.isNone_none, if_true,
            Option.getD_none, List.map_nil]
          rfl
        have hfind2 : findRound (vote_for_song rid u t db).2 rid =
            some { r with votes := some [(⟨u, t⟩ : VoteEntry)] } := by
          rw [E]
          rw [show findRound
                ⟨db.words,
                 updateFirst (fun x => x.id == rid)
                   (fun x => { x with
                     votes := some ((x.votes.getD []) ++ [(⟨u, t⟩ : VoteEntry)]) })
                   (updateFirst (fun x => x.id == rid)
                     (fun x => { x with votes := some [] }) db.rounds)⟩ rid =
              (updateFirst (fun x => x.id == rid)
                (fun x => { x with
                  votes := some ((x.votes.getD []) ++ [(⟨u, t⟩ : VoteEntry)]) })
                (updateFirst (fun x => x.id == rid)
                  (fun x => { x with votes := some [] }) db.rounds)).find?
                (fun x => x.id == rid) from rfl]
          rw [updateFirst_updateFirst (fun x => x.id == rid)
            (fun x => { x with votes := some ([] : List VoteEntry) })
            (fun x => { x with
              votes := some ((x.votes.getD []) ++ [(⟨u, t⟩ : VoteEntry)]) })
            (fun x hx => hx) db.rounds]
          rw [find?_updateFirst (fun x => x.id == rid)
            (fun x =>
              (fun y : RoundDoc => { y with
                votes := some ((y.votes.getD []) ++ [(⟨u, t⟩ : VoteEntry)]) })
              ((fun y : RoundDoc => { y with
                votes := some ([] : List VoteEntry) }) x))
            (fun x hx => hx) db.rounds, hr']
          rfl
        refine ⟨by rw [E], hfind2, ?_⟩
        have hsecond : ∀ db2 : DB, findRound db2 rid =
            some { r with votes := some [(⟨u, t⟩ : VoteEntry)] } →
            vote_for_song rid u t' db2 = (false, db2) := by
          intro db2 hdb2
          simp [vote_for_song, hdb2, hgs]
        exact hsecond _ hfind2
      | some l =>
        have hc' : (l.map (fun v => v.user_id)).contains u = false := by
          simpa [hvv] using hc
        have E : vote_for_song rid u t db =
            (true, ⟨db.words,
              updateFirst (fun x => x.id == rid)
                (fun x => { x with
                  votes := some ((x.votes.getD []) ++ [(⟨u, t⟩ : VoteEntry)]) })
                db.rounds⟩) := by
          simp only [vote_for_song, hr, hgs, hvv, Option.isNone_some,
            Bool.false_eq_true, if_false, Option.getD_some, hc', if_true]
        have hfind2 : findRound (vote_for_song rid u t db).2 rid =
            some { r with votes := some (l ++ [(⟨u, t⟩ : VoteEntry)]) } := by
          rw [E]
          rw [show findRound
                ⟨db.words,
                 updateFirst (fun x => x.id == rid)
                   (fun x => { x with
                     votes := some ((x.votes.getD []) ++ [(⟨u, t⟩ : VoteEntry)]) })
                   db.rounds⟩ rid =
              (updateFirst (fun x => x.id == rid)
                (fun x => { x with
                  votes := some ((x.votes.getD []) ++ [(⟨u, t⟩ : VoteEntry)]) })
                db.rounds).find? (fun x => x.id == rid) from rfl]
          rw [find?_updateFirst (fun x => x.id == rid)
            (fun x => { x with
              votes := some ((x.votes.getD []) ++ [(⟨u, t⟩ : VoteEntry)]) })
            (fun x hx => hx) db.rounds, hr']
          simp [hvv]
        refine ⟨by rw [E], hfind2, ?_⟩
        have hsecond : ∀ db2 : DB, findRound db2 rid =
            some { r with votes := some (l ++ [(⟨u, t⟩ : VoteEntry)]) } →
            vote_for_song rid u t' db2 = (false, db2) := by
          intro db2 hdb2
          simp [vote_for_song, hdb2, hgs]
        exact hsecond _ hfind2

/-- Witness for C4 on a concrete store with a completed round carrying
generated songs (round 1) and one without (round 2): voting on a
missing round or on round 2 fails with no change; user 5's first vote
on round 1 succeeds, initialises the vote list to `[{5, 3}]`, and a
repeat vote returns false and changes nothing. -/
theorem C4_witness :
    vote_for_song 3 5 0
        ⟨[], [⟨1, 1, "completed", 0, 68, none, some [⟨some "la", none⟩]⟩,
              ⟨2, 2, "completed", 0, 68, none, none⟩]⟩ =
      (false, ⟨[], [⟨1, 1, "completed", 0, 68, none, some [⟨some "la", none⟩]⟩,
              ⟨2, 2, "completed", 0, 68, none, none⟩]⟩)
    ∧ vote_for_song 2 5 0
        ⟨[], [⟨1, 1, "completed", 0, 68, none, some [⟨some "la", none⟩]⟩,
              ⟨2, 2, "completed", 0, 68, none, none⟩]⟩ =
      (false, ⟨[], [⟨1, 1, "completed", 0, 68, none, some [⟨some "la", none⟩]⟩,
              ⟨2, 2, "completed", 0, 68, none, none⟩]⟩)
    ∧ (vote_for_song 1 5 3
        ⟨[], [⟨1, 1, "completed", 0, 68, none, some [⟨some "la", none⟩]⟩,
              ⟨2, 2, "completed", 0, 68, none, none⟩]⟩).1 = true
    ∧ findRound (vote_for_song 1 5 3
        ⟨[], [⟨1, 1, "completed", 0, 68, none, some [⟨some "la", none⟩]⟩,
              ⟨2, 2, "completed", 0, 68, none, none⟩]⟩).2 1 =
      some ⟨1, 1, "completed", 0, 68, some [⟨5, 3⟩], some [⟨some "la", none⟩]⟩
    ∧ vote_for_song 1 5 4 (vote_for_song 1 5 3
        ⟨[], [⟨1, 1, "completed", 0, 68, none, some [⟨some "la", none⟩]⟩,
              ⟨2, 2, "completed", 0, 68, none, none⟩]⟩).2 =
      (false, (vote_for_song 1 5 3
        ⟨[], [⟨1, 1, "completed", 0, 68, none, some [⟨some "la", none⟩]⟩,
              ⟨2, 2, "completed", 0, 68, none, none⟩]⟩).2) := by
  have H := C4_vote_for_song_spec
    ⟨[], [⟨1, 1, "completed", 0, 68, none, some [⟨some "la", none⟩]⟩,
          ⟨2, 2, "completed", 0, 68, none, none⟩]⟩ 1 5 3 4
  have H3 := H.2.2 ⟨1, 1, "completed", 0, 68, none, some [⟨some "la", none⟩]⟩
    rfl (by decide)
  have Hvote := H3.2 (by decide)
  refine ⟨?_, ?_, Hvote.1, Hvote.2.1.trans (by decide), Hvote.2.2⟩
  · exact (C4_vote_for_song_spec
      ⟨[], [⟨1, 1, "completed", 0, 68, none, some [⟨some "la", none⟩]⟩,
            ⟨2, 2, "completed", 0, 68, none, none⟩]⟩ 3 5 0 0).1 rfl
  · exact (C4_vote_for_song_spec
      ⟨[], [⟨1, 1, "completed", 0, 68, none, some [⟨some "la", none⟩]⟩,
            ⟨2, 2, "completed", 0, 68, none, none⟩]⟩ 2 5 0 0).2.1
      ⟨2, 2, "completed", 0, 68, none, none⟩ rfl rfl

/-- C7: every operation preserves "at most one round is active".
`get_current_round` creates a round (an active one) only when no active
round exists, `add_word` only rewrites `total_chars`, `vote_for_word`
touches only the words collection, and `vote_for_song` only rewrites a
round's `votes`; `get_previous_rounds` reads the store without
modifying it (in the embedding it returns no state at all). -/
theorem C7_at_most_one_active (db : DB) (w : String) (round : RoundDoc)
    (wid rid u t nid now : Nat) (h : countActive db ≤ 1) :
    countActive (get_current_round now nid db).2 ≤ 1
    ∧ countActive (add_word w round u t nid db).db ≤ 1
    ∧ countActive ((vote_for_word wid u t db).getD db) ≤ 1
    ∧ countActive (vote_for_song rid u t db).2 ≤ 1 := by
  refine ⟨?_, ?_, ?_, ?_⟩
  · cases hf : db.rounds.find? (fun r => r.status == "active") with
    | some r =>
      simp only [get_current_round, hf]
      exact h
    | none =>
      simp only [get_current_round, hf]
      simp only [countActive]
      rw [List.countP_append]
      have h0 : db.rounds.countP (fun r => r.status == "active") = 0 :=
        List.countP_eq_zero.mpr (fun a ha => List.find?_eq_none.mp hf a ha)
      rw [h0]
      simp
  · by_cases hc : calculate_prompt_length
        ((roundWords db round.id).map (fun x => x.word) ++ [w]) > CHAR_LIMIT
    · simp only [add_word]
      rw [if_pos hc]
      exact h
    · simp only [add_word]
      rw [if_neg hc]
      simp only [countActive]
      rw [countP_updateFirst]
      · exact h
      · intro x
        rfl
  · cases hfw : findWord db wid with
    | none =>
      simp only [vote_for_word, hfw, Option.getD_none]
      exact h
    | some wd =>
      by_cases hc : (wd.votes.map (fun v => v.user_id)).contains u = true
      · simp only [vote_for_word, hfw]
        rw [if_pos hc]
        simp only [Option.getD_some]
        exact h
      · simp only [vote_for_word, hfw]
        rw [if_neg hc]
        simp only [Option.getD_some, countActive]
        exact h
  · cases hfr : findRound db rid with
    | none =>
      simp only [vote_for_song, hfr]
      exact h
    | some r =>
      cases hgs : r.generated_songs with
      | none =>
        simp only [vote_for_song, hfr, hgs]
        exact h
      | some s =>
        by_cases hcv :
            ((r.votes.getD []).map (fun v => v.user_id)).contains u = true
        · by_cases hvn : r.votes.isNone = true
          · simp only [vote_for_song, hfr, hgs]
            rw [if_pos hvn, if_pos hcv]
            simp only [countActive]
            rw [countP_updateFirst]
            · exact h
            · intro x
              rfl
          · simp only [vote_for_song, hfr, hgs]
            rw [if_neg hvn, if_pos hcv]
            exact h
        · by_cases hvn : r.votes.isNone = true
          · simp only [vote_for_song, hfr, hgs]
            rw [if_pos hvn, if_neg hcv]
            simp only [countActive]
            rw [countP_updateFirst]
            · rw [countP_updateFirst]
              · exact h
              · intro x
                rfl
            · intro x
              rfl
          · simp only [vote_for_song, hfr, hgs]
            rw [if_neg hvn, if_neg hcv]
            simp only [countActive]
            rw [countP_updateFirst]
            · exact h
            · intro x
              rfl

/-- Witness for C7 on a store holding exactly one active round: all four
operations keep the active-round count at most one. -/
theorem C7_witness :
    countActive (get_current_round 9 2
      ⟨[⟨1, "yo", [], 0, 7, 1⟩], [⟨1, 1, "active", 0, 70, none, none⟩]⟩).2 ≤ 1
    ∧ countActive (add_word "hey" ⟨1, 1, "active", 0, 70, none, none⟩ 5 3 2
      ⟨[⟨1, "yo", [], 0, 7, 1⟩], [⟨1, 1, "active", 0, 70, none, none⟩]⟩).db ≤ 1
    ∧ countActive ((vote_for_word 1 5 3
      ⟨[⟨1, "yo", [], 0, 7, 1⟩], [⟨1, 1, "active", 0, 70, none, none⟩]⟩).getD
      ⟨[⟨1, "yo", [], 0, 7, 1⟩], [⟨1, 1, "active", 0, 70, none, none⟩]⟩) ≤ 1
    ∧ countActive (vote_for_song 1 5 3
      ⟨[⟨1, "yo", [], 0, 7, 1⟩], [⟨1, 1, "active", 0, 70, none, none⟩]⟩).2 ≤ 1 :=
  C7_at_most_one_active
    ⟨[⟨1, "yo", [], 0, 7, 1⟩], [⟨1, 1, "active", 0, 70, none, none⟩]⟩
    "hey" ⟨1, 1, "active", 0, 70, none, none⟩ 1 1 5 3 2 9 (by decide)

end RapApp
